import Mathlib

/-!
Shallow embedding of the progress-tracking and quiz-grading core of the
online-learning-platform backend (files
src/backend/src/models/course.model.js and
src/backend/src/controllers/quiz.controller.js,
src/backend/src/controllers/course.controller.js).

JavaScript numbers are modelled as rationals; the special values produced
by division (NaN, Infinity) are modelled explicitly by the type JsNum,
because the grading code divides by a possibly-zero maxScore and the
outcome of comparing NaN matters for the pass/fail flag.  Dates are
modelled as natural-number timestamps, Mongo ObjectIds as strings
(the code always compares them via toString()).
-/

namespace LMS

/-- JavaScript Math.round: round half toward positive infinity.
Math.round(x) = ⌊x + 1/2⌋ for every finite x. -/
def mathRound (q : ℚ) : ℤ := Int.floor (q + 1/2)

/-- A JavaScript number: either a finite value, NaN, or a signed infinity.
Only the cases reachable in the embedded code are exercised, but the
operations below follow IEEE-754/JS semantics on all of them. -/
inductive JsNum where
  | num (q : ℚ)
  | nan
  | inf (pos : Bool)
deriving DecidableEq, Repr

namespace JsNum

/-- JS division a / b (with +0 only, as in the embedded code: the
operands are sums of nonnegative scores). 0/0 = NaN, x/0 = ±Infinity. -/
def div : JsNum → JsNum → JsNum
  | num a, num b =>
      if b = 0 then (if a = 0 then nan else inf (0 < a)) else num (a / b)
  | nan, _ => nan
  | _, nan => nan
  | inf _, inf _ => nan
  | inf p, num b => if b < 0 then inf (!p) else inf p
  | num _, inf _ => num 0

/-- JS multiplication. -/
def mul : JsNum → JsNum → JsNum
  | num a, num b => num (a * b)
  | nan, _ => nan
  | _, nan => nan
  | inf p, inf q => inf (p = q)
  | inf p, num b => if b = 0 then nan else inf (p = (0 < b))
  | num a, inf p => if a = 0 then nan else inf (p = (0 < a))

/-- JS addition. -/
def add : JsNum → JsNum → JsNum
  | num a, num b => num (a + b)
  | nan, _ => nan
  | _, nan => nan
  | inf p, inf q => if p = q then inf p else nan
  | inf p, num _ => inf p
  | num _, inf p => inf p

/-- JS comparison x >= y.  Any comparison with NaN is false. -/
def ge : JsNum → JsNum → Bool
  | num a, num b => b ≤ a
  | nan, _ => false
  | _, nan => false
  | inf p, inf q => p ∨ (p = q)
  | inf p, num _ => p
  | num _, inf p => !p

/-- JS Math.round lifted to JsNum: Math.round(NaN) = NaN,
Math.round(±Infinity) = ±Infinity. -/
def round : JsNum → JsNum
  | num q => num (mathRound q)
  | nan => nan
  | inf p => inf p

end JsNum

/-- A JS runtime value as stored in a Mixed schema field
(quiz answers are either an option index or a short-answer string).
Strict equality (===) is equality of constructor and payload. -/
inductive JsValue where
  | num (q : ℚ)
  | str (s : String)
  | boolean (b : Bool)
  | undefinedV
deriving DecidableEq, Repr

/-! ## Quiz data (quiz.model.js schema) -/

/-- One entry of an attempt's answers array. -/
structure GradedAnswer where
  questionIndex : ℕ
  givenAnswer : JsValue
  isCorrect : Bool
  pointsEarned : ℚ
deriving DecidableEq, Repr

/-- One entry of quiz.attempts.  completedAt = none models the
completedAt field being unset (the attempt is still in progress). -/
structure Attempt where
  student : String
  score : ℚ
  maxScore : ℚ
  passed : Bool
  answers : List GradedAnswer
  startedAt : ℕ
  completedAt : Option ℕ
  timeSpent : ℚ
deriving DecidableEq, Repr

/-- One entry of quiz.questions. -/
structure Question where
  questionText : String
  options : List String
  correctAnswer : JsValue
  points : ℚ
deriving DecidableEq, Repr

/-- A Quiz document (the fields read or written by the embedded
controller actions). -/
structure Quiz where
  id : String
  course : String
  passingScore : ℚ
  isActive : Bool
  questions : List Question
  attempts : List Attempt
deriving DecidableEq, Repr

/-! ## Course data (course.model.js schema) -/

/-- One entry of a module's materials array. -/
structure Material where
  id : String
  isRequired : Bool
deriving DecidableEq, Repr

/-- One entry of course.modules. -/
structure CModule where
  order : ℤ
  materials : List Material
deriving DecidableEq, Repr

/-- One entry of progress.quizScores. -/
structure QuizScoreEntry where
  quizId : String
  score : ℚ
  maxScore : ℚ
  completedAt : ℕ
deriving DecidableEq, Repr

/-- The progress subdocument of an enrollment. -/
structure Progress where
  completedModules : List ℤ
  completedLessons : List String
  quizScores : List QuizScoreEntry
  completionPercentage : ℤ
  lastAccessedAt : ℕ
deriving DecidableEq, Repr

inductive EnrollmentStatus where
  | pending
  | approved
  | rejected
deriving DecidableEq, Repr

/-- One entry of course.students. -/
structure EnrolledStudent where
  student : String
  enrollmentStatus : EnrollmentStatus
  progress : Progress
deriving DecidableEq, Repr

/-- One entry of the embedded course.quizzes array (the fields read by
calculateStudentProgress). -/
structure CourseQuiz where
  id : String
  passingScore : ℚ
deriving DecidableEq, Repr

/-- A Course document (the fields the embedded operations touch). -/
structure Course where
  id : String
  instructor : String
  students : List EnrolledStudent
  modules : List CModule
  quizzes : List CourseQuiz
deriving DecidableEq, Repr

/-! ## calculateStudentProgress (course.model.js lines 250-304)

The method walks all modules' materials counting the required ones and
those whose id is in completedLessons, then walks the embedded
course.quizzes counting each one and those whose recorded quizScores
entry satisfies score >= passingScore, and finally writes
Math.round((completedItems / totalRequiredItems) * 100) (or 0 when
totalRequiredItems is 0) into the student's completionPercentage. -/

/-- The check `quizScore && quizScore.score >= quiz.passingScore` on the
first quizScores entry recorded for this quiz. -/
def quizCounted (scores : List QuizScoreEntry) (q : CourseQuiz) : Bool :=
  match scores.find? (fun s => s.quizId == q.id) with
  | some s => q.passingScore ≤ s.score
  | none => false

/-- Count of materials with isRequired across all modules. -/
def requiredMaterialCount (mods : List CModule) : ℕ :=
  mods.foldl (fun acc m => acc + m.materials.countP (fun mat => mat.isRequired)) 0

/-- Count of required materials whose id is in completedLessons. -/
def completedMaterialCount (mods : List CModule) (lessons : List String) : ℕ :=
  mods.foldl
    (fun acc m =>
      acc + m.materials.countP (fun mat => mat.isRequired && lessons.contains mat.id)) 0

/-- The totalRequiredItems counter after both forEach loops. -/
def totalRequiredItems (c : Course) : ℕ :=
  requiredMaterialCount c.modules + c.quizzes.length

/-- The completedItems counter after both forEach loops. -/
def completedItems (c : Course) (p : Progress) : ℕ :=
  completedMaterialCount c.modules p.completedLessons +
    c.quizzes.countP (quizCounted p.quizScores)

/-- The percentage the method computes from the two counters. -/
def progressPercentage (c : Course) (p : Progress) : ℤ :=
  if 0 < totalRequiredItems c then
    mathRound (((completedItems c p : ℚ) / (totalRequiredItems c : ℚ)) * 100)
  else 0

/-- courseSchema.methods.calculateStudentProgress.  Returns the saved
course and the returned percentage; when the student is not found the
method returns 0 without touching the course. -/
def calculateStudentProgress (c : Course) (studentId : String) : Course × ℤ :=
  match c.students.findIdx? (fun s => s.student == studentId) with
  | none => (c, 0)
  | some i =>
      match c.students[i]? with
      | none => (c, 0)
      | some st =>
          let pct := progressPercentage c st.progress
          let st1 := { st with progress := { st.progress with completionPercentage := pct } }
          ({ c with students := c.students.set i st1 }, pct)

/-! ## updateCourseProgress (course.controller.js lines 718-790) -/

inductive ProgressOutcome where
  | ok (p : Progress)
  | notEnrolled
deriving DecidableEq, Repr

/-- The lesson branch of updateCourseProgress: JS `if (lessonId)` is
false for an absent field and for the empty string, so the branch is
modelled as guarded by lessonId ≠ "". -/
def updateLessons (lessons : List String) (lessonId : String) (completed : Bool) :
    List String :=
  if completed && !(lessons.contains lessonId) then lessons ++ [lessonId]
  else if !completed then lessons.filter (fun s => !(s == lessonId))
  else lessons

/-- The module branch of updateCourseProgress (guarded by
moduleIndex !== undefined). -/
def updateModules (mods : List ℤ) (moduleIndex : ℤ) (completed : Bool) : List ℤ :=
  if completed && !(mods.contains moduleIndex) then mods ++ [moduleIndex]
  else if !completed then mods.filter (fun k => !(k == moduleIndex))
  else mods

/-- The mutation the handler applies to the student's progress
subdocument before recomputing: toggle the lesson set (JS `if
(lessonId)` is false for an absent field and the empty string), toggle
the module set when moduleIndex was sent, and stamp lastAccessedAt. -/
def progressAfterToggle (p : Progress) (lessonId : String) (moduleIndex : Option ℤ)
    (completed : Bool) (now : ℕ) : Progress :=
  { p with
      completedLessons :=
        if lessonId ≠ "" then updateLessons p.completedLessons lessonId completed
        else p.completedLessons
      completedModules :=
        match moduleIndex with
        | some m => updateModules p.completedModules m completed
        | none => p.completedModules
      lastAccessedAt := now }

/-- updateCourseProgress.  The student entry must match the user id with
an approved enrollmentStatus; then the lesson and module sets are
updated, lastAccessedAt is set, calculateStudentProgress runs on the
mutated course (its save is the state the handler leaves behind), and
the response carries the student subdocument's progress after that
recomputation. -/
def updateCourseProgress (c : Course) (userId : String) (lessonId : String)
    (moduleIndex : Option ℤ) (completed : Bool) (now : ℕ) :
    Course × ProgressOutcome :=
  match c.students.findIdx?
      (fun s => s.student == userId && s.enrollmentStatus == EnrollmentStatus.approved) with
  | none => (c, .notEnrolled)
  | some i =>
      match c.students[i]? with
      | none => (c, .notEnrolled)
      | some st =>
          let p1 := progressAfterToggle st.progress lessonId moduleIndex completed now
          let c1 : Course := { c with students := c.students.set i { st with progress := p1 } }
          let c2 := (calculateStudentProgress c1 userId).1
          (c2,
            match c2.students[i]? with
            | some st2 => ProgressOutcome.ok st2.progress
            | none => ProgressOutcome.ok p1)

/-! ## startQuizAttempt (quiz.controller.js lines 318-414) -/

inductive StartOutcome where
  | notEnrolled
  | inactive
  | resumed (a : Attempt)
  | started (a : Attempt)
deriving DecidableEq, Repr

/-- quiz.questions.reduce((sum, q) => sum + q.points, 0). -/
def attemptMaxScore (qz : Quiz) : ℚ :=
  qz.questions.foldl (fun acc q => acc + q.points) 0

/-- startQuizAttempt.  The handler checks the approved enrollment, then
isActive, then resumes any attempt of this student with no completedAt;
otherwise it pushes a fresh attempt (score 0, maxScore the sum of all
question points, empty answers, startedAt now; passed and timeSpent take
their schema defaults) and re-finds it for the response. -/
def startQuizAttempt (qz : Quiz) (c : Course) (userId : String) (now : ℕ) :
    Quiz × StartOutcome :=
  if !(c.students.any
      (fun s => s.student == userId && s.enrollmentStatus == EnrollmentStatus.approved)) then
    (qz, .notEnrolled)
  else if !qz.isActive then (qz, .inactive)
  else
    match qz.attempts.find? (fun a => a.student == userId && a.completedAt == none) with
    | some a => (qz, .resumed a)
    | none =>
        let newAttempt : Attempt :=
          { student := userId
            score := 0
            maxScore := attemptMaxScore qz
            passed := false
            answers := []
            startedAt := now
            completedAt := none
            timeSpent := 0 }
        let qz1 := { qz with attempts := qz.attempts ++ [newAttempt] }
        match qz1.attempts.find? (fun a => a.student == userId && a.completedAt == none) with
        | some a => (qz1, .started a)
        | none => (qz1, .started newAttempt)

/-! ## submitQuizAttempt (quiz.controller.js lines 416-538) -/

/-- One step of the grading forEach: answer at index i is compared with
questions[i].correctAnswer by strict equality.  The none branch is the
point where the source would dereference an undefined question; the
caller rejects that case before grading. -/
def gradeOne (questions : List Question) (i : ℕ) (ans : JsValue) : GradedAnswer :=
  match questions[i]? with
  | some q =>
      let correct := ans == q.correctAnswer
      { questionIndex := i
        givenAnswer := ans
        isCorrect := correct
        pointsEarned := if correct then q.points else 0 }
  | none =>
      { questionIndex := i, givenAnswer := ans, isCorrect := false, pointsEarned := 0 }

/-- The gradedAnswers array built by the forEach loop. -/
def gradeAnswers (questions : List Question) (answers : List JsValue) :
    List GradedAnswer :=
  answers.enum.map (fun ia => gradeOne questions ia.1 ia.2)

/-- The totalScore accumulator of the forEach loop. -/
def totalScoreOf (graded : List GradedAnswer) : ℚ :=
  graded.foldl (fun acc g => acc + g.pointsEarned) 0

/-- The expression (totalScore / maxScore) * 100 under JS number
semantics (NaN when both are 0). -/
def scoreRatio (totalScore maxScore : ℚ) : JsNum :=
  JsNum.mul (JsNum.div (JsNum.num totalScore) (JsNum.num maxScore)) (JsNum.num 100)

/-- The assignment quiz.attempts[i].passed =
(totalScore / maxScore) * 100 >= quiz.passingScore. -/
def jsPassed (totalScore maxScore passingScore : ℚ) : Bool :=
  JsNum.ge (scoreRatio totalScore maxScore) (JsNum.num passingScore)

/-- The summary object of the 200 response. -/
structure SubmitSummary where
  attempt : Attempt
  score : ℚ
  maxScore : ℚ
  percentage : JsNum
  passed : Bool
deriving DecidableEq, Repr

inductive SubmitOutcome where
  | ok (s : SubmitSummary)
  | noActiveAttempt
  | internalError (msg : String)
deriving DecidableEq, Repr

/-- submitQuizAttempt.  Returns the persisted quiz, the course document
holding the student's progress, and the response.

The handler loads only the quiz.  It finds the student's attempt with no
completedAt (404 "No active attempt found" otherwise, nothing mutated),
grades the answers against quiz.questions (an answers array longer than
the questions array dereferences an undefined question, so the try/catch
yields a 500 before quiz.save()), writes the graded fields into the
attempt and saves the quiz.  After the save, when the attempt passed,
the handler reads the identifier `course`, which is never declared in
this function (the controller never calls Course.findById here): the
ReferenceError is caught and a 500 response is returned, so on the
passing path the course document is never read or written and no summary
is returned, while the saved quiz keeps the graded attempt. -/
def submitQuizAttempt (qz : Quiz) (c : Course) (userId : String)
    (answers : List JsValue) (now : ℕ) : Quiz × Course × SubmitOutcome :=
  match qz.attempts.findIdx? (fun a => a.student == userId && a.completedAt == none) with
  | none => (qz, c, .noActiveAttempt)
  | some i =>
      if qz.questions.length < answers.length then
        (qz, c, .internalError "TypeError: cannot read properties of undefined")
      else
        match qz.attempts[i]? with
        | none => (qz, c, .noActiveAttempt)
        | some att =>
            let graded := gradeAnswers qz.questions answers
            let totalScore := totalScoreOf graded
            let maxScore := attemptMaxScore qz
            let passed := jsPassed totalScore maxScore qz.passingScore
            let att1 : Attempt :=
              { att with
                  answers := graded
                  score := totalScore
                  maxScore := maxScore
                  completedAt := some now
                  timeSpent := ((now : ℚ) - (att.startedAt : ℚ)) / 1000
                  passed := passed }
            let qz1 := { qz with attempts := qz.attempts.set i att1 }
            if passed then
              (qz1, c, .internalError "ReferenceError: course is not defined")
            else
              (qz1, c,
                .ok
                  { attempt := att1
                    score := totalScore
                    maxScore := maxScore
                    percentage := JsNum.round (scoreRatio totalScore maxScore)
                    passed := passed })

/-! ## updateQuiz and deleteQuiz (quiz.controller.js lines 206-327) -/

inductive QuizAdminOutcome where
  | ok
  | notAuthorized
  | hasAttempts
deriving DecidableEq, Repr

/-- updateQuiz.  After the ownership check, the handler refuses with a
400 whenever quiz.attempts is non-empty; only then does
Quiz.findByIdAndUpdate apply the request body, modelled as an abstract
document update function. -/
def updateQuiz (qz : Quiz) (c : Course) (userId : String) (role : String)
    (body : Quiz → Quiz) : Quiz × QuizAdminOutcome :=
  if !(c.instructor == userId) && !(role == "admin") then (qz, .notAuthorized)
  else if 0 < qz.attempts.length then (qz, .hasAttempts)
  else (body qz, .ok)

/-- deleteQuiz.  Same guards; on success the document is removed
(the none result). -/
def deleteQuiz (qz : Quiz) (c : Course) (userId : String) (role : String) :
    Option Quiz × QuizAdminOutcome :=
  if !(c.instructor == userId) && !(role == "admin") then (some qz, .notAuthorized)
  else if 0 < qz.attempts.length then (some qz, .hasAttempts)
  else (none, .ok)

/-! ## Quiz statistics (getQuizResults, quiz.controller.js lines 596-700) -/

/-- The per-attempt record built for completedAttempts: notably
percentage = Math.round((score / maxScore) * 100) under JS semantics. -/
structure AttemptView where
  student : String
  score : ℚ
  maxScore : ℚ
  percentage : JsNum
  passed : Bool
  answers : List GradedAnswer
  startedAt : ℕ
  completedAt : Option ℕ
  timeSpent : ℚ
deriving DecidableEq, Repr

/-- One questionStats entry. -/
structure QuestionStat where
  questionIndex : ℕ
  questionText : String
  totalAttempts : ℕ
  correctAnswers : ℕ
  correctPercentage : ℤ
deriving DecidableEq, Repr

/-- The stats and questionStats portions of the getQuizResults
response, together with the completedAttempts list it serves. -/
structure QuizStats where
  totalAttempts : ℕ
  passedAttempts : ℕ
  passRate : ℤ
  averageScore : JsNum
  questionStats : List QuestionStat
  attempts : List AttemptView
deriving DecidableEq, Repr

/-- Mapping of a stored attempt to its response view. -/
def attemptView (a : Attempt) : AttemptView :=
  { student := a.student
    score := a.score
    maxScore := a.maxScore
    percentage := JsNum.round (scoreRatio a.score a.maxScore)
    passed := a.passed
    answers := a.answers
    startedAt := a.startedAt
    completedAt := a.completedAt
    timeSpent := a.timeSpent }

/-- The questionStats entry for question q at index i over the
completedAttempts list. -/
def questionStat (completed : List AttemptView) (i : ℕ) (q : Question) : QuestionStat :=
  let answered := completed.filter (fun a => a.answers.any (fun ans => ans.questionIndex == i))
  let correct :=
    (answered.filter
      (fun a =>
        ((a.answers.find? (fun ans => ans.questionIndex == i)).map
          (fun ans => ans.isCorrect)).getD false)).length
  { questionIndex := i
    questionText := q.questionText
    totalAttempts := answered.length
    correctAnswers := correct
    correctPercentage :=
      if 0 < answered.length then
        mathRound (((correct : ℚ) / (answered.length : ℚ)) * 100)
      else 0 }

/-- The statistics computation of getQuizResults: filter the attempts
that have a completedAt, map them to views, sort by descending score,
then derive totalAttempts, passedAttempts, passRate, averageScore and
the per-question stats, each guarded against empty denominators by the
source's ternaries. -/
def computeQuizStatistics (qz : Quiz) : QuizStats :=
  let completed :=
    ((qz.attempts.filter (fun a => a.completedAt.isSome)).map attemptView).mergeSort
      (fun a b => b.score ≤ a.score)
  let totalAttempts := completed.length
  let passedAttempts := (completed.filter (fun a => a.passed)).length
  let passRate : ℤ :=
    if 0 < totalAttempts then
      mathRound (((passedAttempts : ℚ) / (totalAttempts : ℚ)) * 100)
    else 0
  let averageScore : JsNum :=
    if 0 < totalAttempts then
      JsNum.round
        (JsNum.div (completed.foldl (fun acc a => JsNum.add acc a.percentage) (JsNum.num 0))
          (JsNum.num totalAttempts))
    else JsNum.num 0
  { totalAttempts := totalAttempts
    passedAttempts := passedAttempts
    passRate := passRate
    averageScore := averageScore
    questionStats := qz.questions.enum.map (fun iq => questionStat completed iq.1 iq.2)
    attempts := completed }

/-! ## Helper lemmas -/

theorem foldl_add_eq {α M : Type*} [AddMonoid M] (f : α → M) (l : List α) (a : M) :
    l.foldl (fun acc x => acc + f x) a = a + (l.map f).sum := by
  induction l generalizing a with
  | nil => simp
  | cons x l ih => simp [ih, add_assoc]

theorem totalScoreOf_eq_sum (graded : List GradedAnswer) :
    totalScoreOf graded = (graded.map (fun g => g.pointsEarned)).sum := by
  simpa using foldl_add_eq (fun g : GradedAnswer => g.pointsEarned) graded 0

theorem attemptMaxScore_eq_sum (qz : Quiz) :
    attemptMaxScore qz = (qz.questions.map (fun q => q.points)).sum := by
  simpa using foldl_add_eq (fun q : Question => q.points) qz.questions 0

theorem gradeOne_points_nonneg {questions : List Question}
    (hp : ∀ q ∈ questions, 0 ≤ q.points) (i : ℕ) (a : JsValue) :
    0 ≤ (gradeOne questions i a).pointsEarned := by
  rcases h : questions[i]? with _ | q
  · simp [gradeOne, h]
  · have hq : q ∈ questions := by
      rw [List.getElem?_eq_some] at h
      obtain ⟨hi, rfl⟩ := h
      exact List.getElem_mem hi
    simp only [gradeOne, h]
    split
    · exact hp q hq
    · exact le_refl 0

theorem gradeOne_points_le {questions : List Question} {n : ℕ} {qn : Question}
    (h : questions[n]? = some qn) (hq : 0 ≤ qn.points) (a : JsValue) :
    (gradeOne questions n a).pointsEarned ≤ qn.points := by
  simp only [gradeOne, h]
  split
  · exact le_refl qn.points
  · exact hq

theorem totalScore_nonneg (questions : List Question) (answers : List JsValue)
    (hp : ∀ q ∈ questions, 0 ≤ q.points) :
    0 ≤ totalScoreOf (gradeAnswers questions answers) := by
  rw [totalScoreOf_eq_sum]
  apply List.sum_nonneg
  intro x hx
  obtain ⟨g, hg, rfl⟩ := List.mem_map.1 hx
  obtain ⟨ia, _, rfl⟩ := List.mem_map.1 hg
  exact gradeOne_points_nonneg hp _ _

theorem totalScore_le_aux (answers : List JsValue) :
    ∀ (questions : List Question) (n : ℕ),
      (∀ q ∈ questions, 0 ≤ q.points) → n + answers.length ≤ questions.length →
      ((List.enumFrom n answers).map (fun ia => (gradeOne questions ia.1 ia.2).pointsEarned)).sum ≤
        ((questions.drop n).map (fun q => q.points)).sum := by
  induction answers with
  | nil =>
      intro qs n hp _
      simp only [List.enumFrom, List.map_nil, List.sum_nil]
      exact List.sum_nonneg (fun x hx => by
        obtain ⟨q, hq, rfl⟩ := List.mem_map.1 hx
        exact hp q (List.drop_subset n qs hq))
  | cons a ans ih =>
      intro qs n hp hlen
      have hn : n < qs.length := by
        simp only [List.length_cons] at hlen
        omega
      rw [List.enumFrom_cons, List.drop_eq_getElem_cons hn]
      simp only [List.map_cons, List.sum_cons]
      apply add_le_add
      · exact gradeOne_points_le (List.getElem?_eq_getElem hn)
          (hp _ (List.getElem_mem hn)) a
      · exact ih qs (n + 1) hp (by simp only [List.length_cons] at hlen; omega)

theorem totalScore_le_maxScore (qz : Quiz) (answers : List JsValue)
    (hp : ∀ q ∈ qz.questions, 0 ≤ q.points)
    (hlen : answers.length ≤ qz.questions.length) :
    totalScoreOf (gradeAnswers qz.questions answers) ≤ attemptMaxScore qz := by
  rw [totalScoreOf_eq_sum, attemptMaxScore_eq_sum]
  have h := totalScore_le_aux answers qz.questions 0 hp (by simpa using hlen)
  simpa [gradeAnswers, List.map_map, List.enum, Function.comp] using h

/-! ## Claim C3 -/

/-- C3: for every submitted attempt (graded answers against the quiz's
questions, with nonnegative point values and at most one answer per
question), the derived passed flag is true iff the percentage
100 * totalScore / maxScore is at least the quiz's passingScore, with
the boundary case passing; and when maxScore = 0 the flag is false
(the JS division yields NaN, every comparison with which is false)
rather than an error. -/
theorem passed_iff_percentage_ge (qz : Quiz) (answers : List JsValue)
    (hp : ∀ q ∈ qz.questions, 0 ≤ q.points)
    (hlen : answers.length ≤ qz.questions.length) :
    (attemptMaxScore qz = 0 →
      jsPassed (totalScoreOf (gradeAnswers qz.questions answers)) (attemptMaxScore qz)
        qz.passingScore = false) ∧
    (attemptMaxScore qz ≠ 0 →
      (jsPassed (totalScoreOf (gradeAnswers qz.questions answers)) (attemptMaxScore qz)
          qz.passingScore = true ↔
        qz.passingScore ≤
          100 * totalScoreOf (gradeAnswers qz.questions answers) / attemptMaxScore qz)) := by
  set ts := totalScoreOf (gradeAnswers qz.questions answers) with hts
  have h0 : 0 ≤ ts := totalScore_nonneg qz.questions answers hp
  have h1 : ts ≤ attemptMaxScore qz := totalScore_le_maxScore qz answers hp hlen
  constructor
  · intro hms
    have hts0 : ts = 0 := le_antisymm (hms ▸ h1) h0
    rw [hts0, hms]
    simp [jsPassed, scoreRatio, JsNum.div, JsNum.mul, JsNum.ge]
  · intro hms
    have heq : ts / attemptMaxScore qz * 100 = 100 * ts / attemptMaxScore qz := by
      ring
    simp [jsPassed, scoreRatio, JsNum.div, JsNum.mul, JsNum.ge, hms, heq]

/-- Concrete quiz for the C3 witness: one 1-point question, passing
score 50. -/
def w3Quiz : Quiz :=
  { id := "qz3", course := "c3", passingScore := 50, isActive := true,
    questions :=
      [{ questionText := "x", options := [], correctAnswer := JsValue.num 0, points := 1 }],
    attempts := [] }

/-- Witness for C3 at a concrete quiz and answer list. -/
theorem passed_iff_percentage_ge_witness :
    (jsPassed (totalScoreOf (gradeAnswers w3Quiz.questions [JsValue.num 0]))
        (attemptMaxScore w3Quiz) w3Quiz.passingScore = true ↔
      w3Quiz.passingScore ≤
        100 * totalScoreOf (gradeAnswers w3Quiz.questions [JsValue.num 0]) /
          attemptMaxScore w3Quiz) :=
  (passed_iff_percentage_ge w3Quiz [JsValue.num 0]
      (by intro q hq; simp [w3Quiz] at hq; simp [hq])
      (by simp [w3Quiz])).2
    (by norm_num [attemptMaxScore, w3Quiz, List.foldl_cons, List.foldl_nil])

/-! ## Claim C5 -/

theorem completedMaterialCount_le (mods : List CModule) (lessons : List String) :
    completedMaterialCount mods lessons ≤ requiredMaterialCount mods := by
  rw [completedMaterialCount, requiredMaterialCount,
    foldl_add_eq (fun m : CModule =>
      m.materials.countP (fun mat => mat.isRequired && lessons.contains mat.id)) mods 0,
    foldl_add_eq (fun m : CModule => m.materials.countP (fun mat => mat.isRequired)) mods 0]
  simp only [zero_add]
  apply List.sum_le_sum
  intro m _
  apply List.countP_mono_left
  intro mat _ hmat
  exact (Bool.and_eq_true_iff.1 hmat).1

theorem completedItems_le_totalRequired (c : Course) (p : Progress) :
    completedItems c p ≤ totalRequiredItems c := by
  unfold completedItems totalRequiredItems
  exact Nat.add_le_add (completedMaterialCount_le c.modules p.completedLessons)
    (List.countP_le_length _)

theorem mathRound_nonneg {q : ℚ} (h : 0 ≤ q) : 0 ≤ mathRound q :=
  Int.floor_nonneg.2 (by linarith)

theorem mathRound_le_100 {q : ℚ} (h : q ≤ 100) : mathRound q ≤ 100 := by
  unfold mathRound
  have h2 : Int.floor (q + 1/2) ≤ Int.floor ((100 : ℚ) + 1/2) :=
    Int.floor_le_floor (by linarith)
  have h3 : Int.floor ((100 : ℚ) + 1/2) = 100 := by
    norm_num [Int.floor_eq_iff]
  omega

theorem progressPercentage_bounds (c : Course) (p : Progress) :
    0 ≤ progressPercentage c p ∧ progressPercentage c p ≤ 100 := by
  unfold progressPercentage
  split
  · next h =>
      have hle := completedItems_le_totalRequired c p
      have htpos : (0 : ℚ) < (totalRequiredItems c : ℚ) := by exact_mod_cast h
      have hq0 : (0 : ℚ) ≤ (completedItems c p : ℚ) / (totalRequiredItems c : ℚ) * 100 := by
        positivity
      have hq1 : (completedItems c p : ℚ) / (totalRequiredItems c : ℚ) * 100 ≤ 100 := by
        have hone : (completedItems c p : ℚ) / (totalRequiredItems c : ℚ) ≤ 1 :=
          (div_le_one htpos).2 (by exact_mod_cast hle)
        nlinarith
      exact ⟨mathRound_nonneg hq0, mathRound_le_100 hq1⟩
  · exact ⟨le_refl 0, by norm_num⟩

theorem findIdx?_of_find? {α : Type*} (p : α → Bool) (l : List α) (x : α)
    (h : l.find? p = some x) : ∃ i, l.findIdx? p = some i ∧ l[i]? = some x := by
  induction l with
  | nil => simp at h
  | cons a l ih =>
      by_cases hpa : p a
      · rw [List.find?_cons_of_pos _ hpa] at h
        exact ⟨0, by simp [List.findIdx?_cons, hpa], by simpa using h⟩
      · rw [List.find?_cons_of_neg _ hpa] at h
        obtain ⟨i, hi, hx⟩ := ih h
        refine ⟨i + 1, ?_, by simpa using hx⟩
        rw [List.findIdx?_cons]
        simp [hpa, List.findIdx?_succ, hi]

/-- C5: calculateStudentProgress is total (never fails), always returns
an integer in [0, 100], returns exactly 0 when the course has no
required items, and for the student entry it found the result is
round-half-up of 100 * completedItems / totalRequiredItems. -/
theorem recompute_completion_bounds (c : Course) (sid : String) :
    (0 ≤ (calculateStudentProgress c sid).2 ∧ (calculateStudentProgress c sid).2 ≤ 100) ∧
    (totalRequiredItems c = 0 → (calculateStudentProgress c sid).2 = 0) ∧
    (∀ st, c.students.find? (fun s => s.student == sid) = some st →
      (calculateStudentProgress c sid).2 =
        if totalRequiredItems c = 0 then 0
        else mathRound
          (100 * (completedItems c st.progress : ℚ) / (totalRequiredItems c : ℚ))) := by
  have hpct : ∀ p : Progress,
      progressPercentage c p =
        if totalRequiredItems c = 0 then 0
        else mathRound
          (100 * (completedItems c p : ℚ) / (totalRequiredItems c : ℚ)) := by
    intro p
    unfold progressPercentage
    rcases Nat.eq_zero_or_pos (totalRequiredItems c) with h | h
    · simp [h]
    · have hne : totalRequiredItems c ≠ 0 := Nat.pos_iff_ne_zero.1 h
      have harith : (completedItems c p : ℚ) / (totalRequiredItems c : ℚ) * 100 =
          100 * (completedItems c p : ℚ) / (totalRequiredItems c : ℚ) := by ring
      simp [h, hne, harith]
  rcases hidx : c.students.findIdx? (fun s => s.student == sid) with _ | i
  · refine ⟨by simp [calculateStudentProgress, hidx], fun _ => by simp [calculateStudentProgress, hidx], ?_⟩
    intro st hst
    obtain ⟨j, hj, _⟩ := findIdx?_of_find? _ _ _ hst
    rw [hidx] at hj
    exact absurd hj (by simp)
  · rcases hget : c.students[i]? with _ | st0
    · refine ⟨by simp [calculateStudentProgress, hidx, hget],
        fun _ => by simp [calculateStudentProgress, hidx, hget], ?_⟩
      intro st hst
      obtain ⟨j, hj, hx⟩ := findIdx?_of_find? _ _ _ hst
      rw [hidx] at hj
      injection hj with hj
      rw [← hj] at hx
      rw [hget] at hx
      exact absurd hx (by simp)
    · have hr : (calculateStudentProgress c sid).2 = progressPercentage c st0.progress := by
        simp [calculateStudentProgress, hidx, hget]
      refine ⟨hr ▸ progressPercentage_bounds c st0.progress, ?_, ?_⟩
      · intro h0
        rw [hr, hpct st0.progress]
        simp [h0]
      · intro st hst
        obtain ⟨j, hj, hx⟩ := findIdx?_of_find? _ _ _ hst
        rw [hidx] at hj
        injection hj with hj
        rw [← hj] at hx
        rw [hget] at hx
        injection hx with hx
        rw [hr, hpct st0.progress, hx]

/-- Progress record of the C5 witness student. -/
def w5Progress : Progress :=
  { completedModules := [], completedLessons := [], quizScores := [],
    completionPercentage := 0, lastAccessedAt := 0 }

/-- The C5 witness student entry. -/
def w5Student : EnrolledStudent :=
  { student := "stu", enrollmentStatus := .approved, progress := w5Progress }

/-- Concrete course for the C5 witness: one required material, the
student has completed nothing. -/
def w5Course : Course :=
  { id := "c5", instructor := "tea",
    students := [w5Student],
    modules := [{ order := 0, materials := [{ id := "m1", isRequired := true }] }],
    quizzes := [] }

/-- Witness for C5 at a concrete course and student. -/
theorem recompute_completion_bounds_witness :
    0 ≤ (calculateStudentProgress w5Course "stu").2 ∧
    (calculateStudentProgress w5Course "stu").2 ≤ 100 ∧
    (calculateStudentProgress w5Course "stu").2 =
      if totalRequiredItems w5Course = 0 then 0
      else mathRound
        (100 * (completedItems w5Course w5Progress : ℚ) /
          (totalRequiredItems w5Course : ℚ)) :=
  ⟨(recompute_completion_bounds w5Course "stu").1.1,
   (recompute_completion_bounds w5Course "stu").1.2,
   by
    have hf : w5Course.students.find? (fun s => s.student == "stu") = some w5Student := by
      rw [show w5Course.students = [w5Student] from rfl,
        List.find?_cons_of_pos _ (by simp [w5Student])]
    exact (recompute_completion_bounds w5Course "stu").2.2 w5Student hf⟩

/-! ## Claim C1 -/

/-- Concrete quiz for C1: one 1-point question with correct answer 0,
passing score 50, and an active (incomplete) attempt by "stu". -/
def c1Quiz : Quiz :=
  { id := "qz1", course := "c1", passingScore := 50, isActive := true,
    questions :=
      [{ questionText := "x", options := [], correctAnswer := JsValue.num 0, points := 1 }],
    attempts := [{ student := "stu", score := 0, maxScore := 1, passed := false,
                   answers := [], startedAt := 0, completedAt := none, timeSpent := 0 }] }

/-- Concrete course for C1: "stu" holds an approved enrollment with an
empty quizScores list. -/
def c1Course : Course :=
  { id := "c1", instructor := "tea",
    students := [{ student := "stu", enrollmentStatus := .approved,
                   progress := { completedModules := [], completedLessons := [],
                                 quizScores := [], completionPercentage := 0,
                                 lastAccessedAt := 0 } }],
    modules := [], quizzes := [] }

/-- C1 (failing evaluation): submitting the correct answer grades the
attempt as passed and saves it on the quiz, but the handler then throws
(the identifier `course` is never declared in submitQuizAttempt), so the
response is a 500 error, the student's quizScores are never upserted,
completion is never recomputed, and no summary is returned. -/
theorem submit_passing_attempt_crashes :
    (submitQuizAttempt c1Quiz c1Course "stu" [JsValue.num 0] 1000).2.2 =
      SubmitOutcome.internalError "ReferenceError: course is not defined" ∧
    (submitQuizAttempt c1Quiz c1Course "stu" [JsValue.num 0] 1000).2.1 = c1Course ∧
    (submitQuizAttempt c1Quiz c1Course "stu" [JsValue.num 0] 1000).1.attempts.map
        (fun a => (a.passed, a.completedAt)) = [(true, some 1000)] := by
  refine ⟨?_, ?_, ?_⟩ <;>
    norm_num [submitQuizAttempt, c1Quiz, c1Course, List.findIdx?_cons, gradeAnswers,
      gradeOne, totalScoreOf, attemptMaxScore, jsPassed, scoreRatio, JsNum.div,
      JsNum.mul, JsNum.ge, List.enum]

/-! ## Claim C2 -/

/-- Concrete course for C2: no materials, one quiz with passingScore 60,
and the student's quizScores record the passing 4-out-of-5 result
(80 percent) that submitQuizAttempt would store. -/
def c2Course : Course :=
  { id := "c2", instructor := "tea",
    students := [{ student := "stu", enrollmentStatus := .approved,
                   progress := { completedModules := [], completedLessons := [],
                                 quizScores :=
                                   [{ quizId := "q1", score := 4, maxScore := 5,
                                      completedAt := 0 }],
                                 completionPercentage := 0, lastAccessedAt := 0 } }],
    modules := [],
    quizzes := [{ id := "q1", passingScore := 60 }] }

/-- C2 (failing evaluation): the attempt scoring 4/5 passes the quiz
(80 >= passingScore 60), its score is recorded in quizScores, the course
has no required materials (so all of them are complete) and that quiz is
its only required item, yet calculateStudentProgress returns 0, not 100:
it compares the recorded raw score 4 against the percentage threshold
60. -/
theorem passed_quiz_not_counted :
    jsPassed 4 5 60 = true ∧
    totalRequiredItems c2Course = 1 ∧
    (calculateStudentProgress c2Course "stu").2 = 0 := by
  refine ⟨?_, ?_, ?_⟩
  · norm_num [jsPassed, scoreRatio, JsNum.div, JsNum.mul, JsNum.ge]
  · norm_num [c2Course, totalRequiredItems, requiredMaterialCount]
  · norm_num [calculateStudentProgress, c2Course, List.findIdx?_cons, progressPercentage,
      totalRequiredItems, completedItems, requiredMaterialCount, completedMaterialCount,
      quizCounted, List.find?, mathRound, List.countP, List.countP.go]

/-! ## Claim C4 -/

/-- C4: when the student has no attempt with unset completedAt (in
particular when every attempt of theirs is already completed),
submitQuizAttempt returns the NoActiveAttempt failure and leaves both
the quiz (its attempt set) and the course (the student's progress)
unchanged, so a completed attempt is never overwritten. -/
theorem submit_without_active_attempt_rejected (qz : Quiz) (c : Course) (uid : String)
    (answers : List JsValue) (now : ℕ)
    (h : ∀ a ∈ qz.attempts, a.student = uid → a.completedAt ≠ none) :
    submitQuizAttempt qz c uid answers now = (qz, c, SubmitOutcome.noActiveAttempt) := by
  have hidx : qz.attempts.findIdx?
      (fun a => a.student == uid && a.completedAt == none) = none := by
    rw [List.findIdx?_eq_none_iff]
    intro a ha
    by_cases hs : a.student = uid
    · have hne := h a ha hs
      have hca : (a.completedAt == none) = false := by
        cases hcc : a.completedAt with
        | none => exact absurd hcc hne
        | some t => rfl
      simp [hca]
    · have hss : (a.student == uid) = false := by simp [hs]
      simp [hss]
  simp [submitQuizAttempt, hidx]

/-- Concrete quiz for the C4 witness: the student's only attempt is
already completed. -/
def w4Quiz : Quiz :=
  { id := "qz4", course := "c4", passingScore := 50, isActive := true,
    questions :=
      [{ questionText := "x", options := [], correctAnswer := JsValue.num 0, points := 1 }],
    attempts := [{ student := "stu", score := 1, maxScore := 1, passed := true,
                   answers := [], startedAt := 0, completedAt := some 10, timeSpent := 10 }] }

/-- Concrete course for the C4 witness. -/
def w4Course : Course :=
  { id := "c4", instructor := "tea",
    students := [{ student := "stu", enrollmentStatus := .approved,
                   progress := { completedModules := [], completedLessons := [],
                                 quizScores := [], completionPercentage := 0,
                                 lastAccessedAt := 0 } }],
    modules := [], quizzes := [] }

/-- Witness for C4: resubmitting after completion is rejected and
changes nothing. -/
theorem submit_without_active_attempt_rejected_witness :
    submitQuizAttempt w4Quiz w4Course "stu" [JsValue.num 0] 99 =
      (w4Quiz, w4Course, SubmitOutcome.noActiveAttempt) :=
  submit_without_active_attempt_rejected w4Quiz w4Course "stu" [JsValue.num 0] 99
    (by intro a ha _; simp [w4Quiz] at ha; simp [ha])

/-! ## Claim C6 -/

/-- C6: for an active quiz and an approved-enrolled student,
startQuizAttempt resumes an existing incomplete attempt unchanged
(same startedAt, no new attempt appended), and otherwise appends exactly
one new attempt with score 0, maxScore the sum of all question points,
empty answers and startedAt = now. -/
theorem start_attempt_idempotent (qz : Quiz) (c : Course) (uid : String) (now : ℕ)
    (hact : qz.isActive = true)
    (henr : ∃ s ∈ c.students, s.student = uid ∧ s.enrollmentStatus = EnrollmentStatus.approved) :
    (∀ a, qz.attempts.find? (fun x => x.student == uid && x.completedAt == none) = some a →
      startQuizAttempt qz c uid now = (qz, StartOutcome.resumed a)) ∧
    (qz.attempts.find? (fun x => x.student == uid && x.completedAt == none) = none →
      startQuizAttempt qz c uid now =
        ({ qz with
            attempts := qz.attempts ++
              [{ student := uid, score := 0, maxScore := attemptMaxScore qz, passed := false,
                 answers := [], startedAt := now, completedAt := none, timeSpent := 0 }] },
          StartOutcome.started
            { student := uid, score := 0, maxScore := attemptMaxScore qz, passed := false,
              answers := [], startedAt := now, completedAt := none, timeSpent := 0 })) := by
  have hany : c.students.any
      (fun s => s.student == uid && s.enrollmentStatus == EnrollmentStatus.approved) = true := by
    rw [List.any_eq_true]
    obtain ⟨s, hs, h1, h2⟩ := henr
    exact ⟨s, hs, by simp [h1, h2]⟩
  constructor
  · intro a hfind
    simp [startQuizAttempt, hany, hact, hfind]
  · intro hfind
    have happ : (qz.attempts ++
        [{ student := uid, score := 0, maxScore := attemptMaxScore qz, passed := false,
           answers := [], startedAt := now, completedAt := none,
           timeSpent := 0 : Attempt }]).find?
          (fun x => x.student == uid && x.completedAt == none) =
        some { student := uid, score := 0, maxScore := attemptMaxScore qz, passed := false,
               answers := [], startedAt := now, completedAt := none, timeSpent := 0 } := by
      rw [List.find?_append, hfind]
      simp
    simp [startQuizAttempt, hany, hact, hfind, happ]

/-- Concrete quiz for the C6 witness: active, one 2-point question, no
attempts yet. -/
def w6Quiz : Quiz :=
  { id := "qz6", course := "c6", passingScore := 50, isActive := true,
    questions :=
      [{ questionText := "x", options := [], correctAnswer := JsValue.num 1, points := 2 }],
    attempts := [] }

/-- Concrete course for the C6 witness. -/
def w6Course : Course :=
  { id := "c6", instructor := "tea",
    students := [{ student := "stu", enrollmentStatus := .approved,
                   progress := { completedModules := [], completedLessons := [],
                                 quizScores := [], completionPercentage := 0,
                                 lastAccessedAt := 0 } }],
    modules := [], quizzes := [] }

/-- Witness for C6: with no prior attempt, a fresh attempt is appended
with the specified initial fields. -/
theorem start_attempt_idempotent_witness :
    w6Quiz.isActive = true ∧
    startQuizAttempt w6Quiz w6Course "stu" 7 =
      ({ w6Quiz with
          attempts := [{ student := "stu", score := 0, maxScore := attemptMaxScore w6Quiz,
                         passed := false, answers := [], startedAt := 7, completedAt := none,
                         timeSpent := 0 }] },
        StartOutcome.started
          { student := "stu", score := 0, maxScore := attemptMaxScore w6Quiz, passed := false,
            answers := [], startedAt := 7, completedAt := none, timeSpent := 0 }) :=
  ⟨rfl,
   by
    have h := (start_attempt_idempotent w6Quiz w6Course "stu" 7 rfl
      ⟨{ student := "stu", enrollmentStatus := .approved,
         progress := { completedModules := [], completedLessons := [],
                       quizScores := [], completionPercentage := 0,
                       lastAccessedAt := 0 } }, by simp [w6Course], rfl, rfl⟩).2
      (by simp [w6Quiz])
    simpa [w6Quiz] using h⟩

/-! ## Claim C10 -/

/-- C10: once a quiz has at least one attempt, updateQuiz and deleteQuiz
are rejected (never the ok outcome) and leave the quiz document as it
was; the student-facing operations startQuizAttempt and
submitQuizAttempt never change the question list (hence the answer key
and per-question points) or the passingScore, and never empty the
attempt set — so after the first attempt the grading data is frozen. -/
theorem quiz_frozen_after_first_attempt (qz : Quiz) (h : qz.attempts ≠ []) :
    (∀ (c : Course) (uid role : String) (body : Quiz → Quiz),
      (updateQuiz qz c uid role body).1 = qz ∧
      (updateQuiz qz c uid role body).2 ≠ QuizAdminOutcome.ok) ∧
    (∀ (c : Course) (uid role : String),
      (deleteQuiz qz c uid role).1 = some qz ∧
      (deleteQuiz qz c uid role).2 ≠ QuizAdminOutcome.ok) ∧
    (∀ (c : Course) (uid : String) (now : ℕ),
      (startQuizAttempt qz c uid now).1.questions = qz.questions ∧
      (startQuizAttempt qz c uid now).1.passingScore = qz.passingScore ∧
      (startQuizAttempt qz c uid now).1.attempts ≠ []) ∧
    (∀ (c : Course) (uid : String) (answers : List JsValue) (now : ℕ),
      (submitQuizAttempt qz c uid answers now).1.questions = qz.questions ∧
      (submitQuizAttempt qz c uid answers now).1.passingScore = qz.passingScore ∧
      (submitQuizAttempt qz c uid answers now).1.attempts ≠ []) := by
  have hlen : 0 < qz.attempts.length := List.length_pos.2 h
  refine ⟨?_, ?_, ?_, ?_⟩
  · intro c uid role body
    unfold updateQuiz
    split_ifs
    · exact ⟨rfl, by simp⟩
    · exact ⟨rfl, by simp⟩
  · intro c uid role
    unfold deleteQuiz
    split_ifs
    · exact ⟨rfl, by simp⟩
    · exact ⟨rfl, by simp⟩
  · intro c uid now
    simp only [startQuizAttempt]
    split
    · exact ⟨rfl, rfl, h⟩
    · split
      · exact ⟨rfl, rfl, h⟩
      · split
        · exact ⟨rfl, rfl, h⟩
        · split <;> exact ⟨rfl, rfl, by simp⟩
  · intro c uid answers now
    simp only [submitQuizAttempt]
    split
    · exact ⟨rfl, rfl, h⟩
    · split
      · exact ⟨rfl, rfl, h⟩
      · split
        · exact ⟨rfl, rfl, h⟩
        · split <;> exact ⟨rfl, rfl, by simp [h]⟩

/-- Concrete quiz for the C10 witness: it already has one attempt. -/
def w10Quiz : Quiz :=
  { id := "qz10", course := "c10", passingScore := 50, isActive := true,
    questions :=
      [{ questionText := "x", options := [], correctAnswer := JsValue.num 0, points := 1 }],
    attempts := [{ student := "stu", score := 0, maxScore := 1, passed := false,
                   answers := [], startedAt := 0, completedAt := none, timeSpent := 0 }] }

/-- Concrete course for the C10 witness. -/
def w10Course : Course :=
  { id := "c10", instructor := "tea", students := [], modules := [], quizzes := [] }

/-- Witness for C10: with one recorded attempt, update and delete by the
instructor are rejected and leave the quiz in place. -/
theorem quiz_frozen_after_first_attempt_witness :
    w10Quiz.attempts ≠ [] ∧
    ((updateQuiz w10Quiz w10Course "tea" "teacher" id).1 = w10Quiz ∧
      (updateQuiz w10Quiz w10Course "tea" "teacher" id).2 ≠ QuizAdminOutcome.ok) ∧
    ((deleteQuiz w10Quiz w10Course "tea" "teacher").1 = some w10Quiz ∧
      (deleteQuiz w10Quiz w10Course "tea" "teacher").2 ≠ QuizAdminOutcome.ok) :=
  ⟨by simp [w10Quiz],
   (quiz_frozen_after_first_attempt w10Quiz (by simp [w10Quiz])).1
     w10Course "tea" "teacher" id,
   ((quiz_frozen_after_first_attempt w10Quiz (by simp [w10Quiz])).2.1
     w10Course "tea" "teacher")⟩

/-! ## Claim C8 -/

/-- Replace the progress record of every enrollment entry of uid. -/
def withProgress (c : Course) (uid : String) (p : Progress) : Course :=
  { c with
      students :=
        c.students.map (fun s => if s.student == uid then { s with progress := p } else s) }

theorem pred_of_findIdx? {α : Type*} (p : α → Bool) (l : List α) (i : ℕ)
    (h : l.findIdx? p = some i) : ∃ x, l[i]? = some x ∧ p x = true := by
  induction l generalizing i with
  | nil => simp at h
  | cons a l ih =>
      rw [List.findIdx?_cons] at h
      by_cases hpa : p a
      · rw [if_pos hpa] at h
        injection h with h
        exact ⟨a, by simp [← h], hpa⟩
      · rw [if_neg hpa, List.findIdx?_succ] at h
        rcases hj : l.findIdx? p with _ | j
        · rw [hj] at h; simp at h
        · rw [hj] at h
          have hji : j + 1 = i := by simpa using h
          obtain ⟨x, hx, hpx⟩ := ih j hj
          exact ⟨x, by simpa [← hji] using hx, hpx⟩

theorem findIdx?_map_pred {α β : Type*} (f : α → β) (p : β → Bool) (l : List α) :
    (l.map f).findIdx? p = l.findIdx? (fun a => p (f a)) := by
  have haux : ∀ (l : List α) (i : ℕ),
      List.findIdx? p (l.map f) i = List.findIdx? (fun a => p (f a)) l i := by
    intro l
    induction l with
    | nil => intro i; simp
    | cons a l ih =>
        intro i
        rw [List.map_cons, List.findIdx?_cons, List.findIdx?_cons]
        by_cases hpa : p (f a) <;> simp [hpa, ih]
  exact haux l 0

/-- C8: the completion percentage is a function of completedLessons and
quizScores only: two progress records agreeing on those two fields (and
differing arbitrarily elsewhere, in particular in completedModules)
yield the same recomputed percentage on the same course. -/
theorem completion_ignores_completedModules (c : Course) (uid : String)
    (p₁ p₂ : Progress)
    (hl : p₁.completedLessons = p₂.completedLessons)
    (hq : p₁.quizScores = p₂.quizScores) :
    (calculateStudentProgress (withProgress c uid p₁) uid).2 =
      (calculateStudentProgress (withProgress c uid p₂) uid).2 := by
  have hpred : ∀ p : Progress,
      (fun s : EnrolledStudent =>
          (if s.student == uid then { s with progress := p } else s).student == uid) =
        (fun s : EnrolledStudent => s.student == uid) := by
    intro p
    funext s
    by_cases hs : s.student == uid <;> simp [hs]
  have hidx : ∀ p : Progress,
      (withProgress c uid p).students.findIdx? (fun s => s.student == uid) =
        c.students.findIdx? (fun s => s.student == uid) := by
    intro p
    unfold withProgress
    rw [findIdx?_map_pred]
    simp only [hpred]
  have hpct : ∀ p : Progress,
      progressPercentage (withProgress c uid p) p = progressPercentage c p := by
    intro p
    unfold progressPercentage totalRequiredItems completedItems withProgress
    rfl
  have hfinal : progressPercentage c p₁ = progressPercentage c p₂ := by
    unfold progressPercentage totalRequiredItems completedItems
    rw [hl, hq]
  rcases hi : c.students.findIdx? (fun s => s.student == uid) with _ | i
  · simp [calculateStudentProgress, hidx, hi]
  · rcases hg : c.students[i]? with _ | st
    · have hg1 : (withProgress c uid p₁).students[i]? = none := by
        unfold withProgress
        simp [List.getElem?_map, hg]
      have hg2 : (withProgress c uid p₂).students[i]? = none := by
        unfold withProgress
        simp [List.getElem?_map, hg]
      simp [calculateStudentProgress, hidx, hi, hg1, hg2]
    · have hmem : (fun s : EnrolledStudent => s.student == uid) st = true := by
        obtain ⟨x, hx, hpx⟩ := pred_of_findIdx? _ _ _ hi
        rw [hg] at hx
        injection hx with hx
        rw [hx]
        exact hpx
      have hg1 : (withProgress c uid p₁).students[i]? = some { st with progress := p₁ } := by
        unfold withProgress
        simp only [List.getElem?_map, hg, Option.map_some]
        simp at hmem
        simp [hmem]
      have hg2 : (withProgress c uid p₂).students[i]? = some { st with progress := p₂ } := by
        unfold withProgress
        simp only [List.getElem?_map, hg, Option.map_some]
        simp at hmem
        simp [hmem]
      have e1 : (calculateStudentProgress (withProgress c uid p₁) uid).2 =
          progressPercentage (withProgress c uid p₁) p₁ := by
        simp [calculateStudentProgress, hidx, hi, hg1]
      have e2 : (calculateStudentProgress (withProgress c uid p₂) uid).2 =
          progressPercentage (withProgress c uid p₂) p₂ := by
        simp [calculateStudentProgress, hidx, hi, hg2]
      rw [e1, e2, hpct p₁, hpct p₂, hfinal]

/-- Concrete course for the C8 witness. -/
def w8Course : Course :=
  { id := "c8", instructor := "tea",
    students := [{ student := "stu", enrollmentStatus := .approved,
                   progress := { completedModules := [], completedLessons := [],
                                 quizScores := [], completionPercentage := 0,
                                 lastAccessedAt := 0 } }],
    modules := [{ order := 0, materials := [{ id := "m1", isRequired := true }] }],
    quizzes := [] }

/-- First progress record for the C8 witness: no completed modules. -/
def w8P1 : Progress :=
  { completedModules := [], completedLessons := ["m1"], quizScores := [],
    completionPercentage := 0, lastAccessedAt := 0 }

/-- Second progress record for the C8 witness: same lessons and scores,
arbitrary completedModules and other fields. -/
def w8P2 : Progress :=
  { completedModules := [1, 2, 3], completedLessons := ["m1"], quizScores := [],
    completionPercentage := 7, lastAccessedAt := 9 }

/-- Witness for C8 at two concrete progress records. -/
theorem completion_ignores_completedModules_witness :
    w8P1.completedLessons = w8P2.completedLessons ∧
    w8P1.quizScores = w8P2.quizScores ∧
    (calculateStudentProgress (withProgress w8Course "stu" w8P1) "stu").2 =
      (calculateStudentProgress (withProgress w8Course "stu" w8P2) "stu").2 :=
  ⟨rfl, rfl, completion_ignores_completedModules w8Course "stu" w8P1 w8P2 rfl rfl⟩

/-! ## Claim C9 -/

/-- C9: the statistics only see attempts with a set completedAt (first
conjunct), and on a quiz where no attempt is completed every aggregate
is zero — totalAttempts, passRate, averageScore, and each of the
per-question entries — with no division-by-zero failure. -/
theorem stats_zero_without_completed_attempts (qz : Quiz) :
    (computeQuizStatistics qz =
      computeQuizStatistics
        { qz with attempts := qz.attempts.filter (fun a => a.completedAt.isSome) }) ∧
    ((∀ a ∈ qz.attempts, a.completedAt = none) →
      (computeQuizStatistics qz).totalAttempts = 0 ∧
      (computeQuizStatistics qz).passedAttempts = 0 ∧
      (computeQuizStatistics qz).passRate = 0 ∧
      (computeQuizStatistics qz).averageScore = JsNum.num 0 ∧
      (computeQuizStatistics qz).attempts = [] ∧
      (computeQuizStatistics qz).questionStats.length = qz.questions.length ∧
      (∀ s ∈ (computeQuizStatistics qz).questionStats,
        s.totalAttempts = 0 ∧ s.correctAnswers = 0 ∧ s.correctPercentage = 0)) := by
  constructor
  · unfold computeQuizStatistics
    simp [List.filter_filter]
  · intro h
    have hnil : qz.attempts.filter (fun a => a.completedAt.isSome) = [] := by
      rw [List.filter_eq_nil_iff]
      intro a ha
      simp [h a ha]
    have hstats : computeQuizStatistics qz =
        { totalAttempts := 0, passedAttempts := 0, passRate := 0,
          averageScore := JsNum.num 0,
          questionStats := qz.questions.enum.map (fun iq => questionStat [] iq.1 iq.2),
          attempts := [] } := by
      unfold computeQuizStatistics
      simp [hnil]
    rw [hstats]
    refine ⟨rfl, rfl, rfl, rfl, rfl, by simp [List.enum_length], ?_⟩
    intro s hs
    simp only [List.mem_map] at hs
    obtain ⟨iq, _, rfl⟩ := hs
    unfold questionStat
    simp

/-- Concrete quiz for the C9 witness: one question, one attempt that was
never completed. -/
def w9Quiz : Quiz :=
  { id := "qz9", course := "c9", passingScore := 50, isActive := true,
    questions :=
      [{ questionText := "x", options := [], correctAnswer := JsValue.num 0, points := 1 }],
    attempts := [{ student := "stu", score := 0, maxScore := 1, passed := false,
                   answers := [], startedAt := 0, completedAt := none, timeSpent := 0 }] }

/-- Witness for C9: the incomplete attempt contributes nothing and no
aggregate is undefined. -/
theorem stats_zero_without_completed_attempts_witness :
    (computeQuizStatistics w9Quiz).totalAttempts = 0 ∧
    (computeQuizStatistics w9Quiz).passedAttempts = 0 ∧
    (computeQuizStatistics w9Quiz).passRate = 0 ∧
    (computeQuizStatistics w9Quiz).averageScore = JsNum.num 0 ∧
    (computeQuizStatistics w9Quiz).attempts = [] ∧
    (computeQuizStatistics w9Quiz).questionStats.length = w9Quiz.questions.length :=
  have h := (stats_zero_without_completed_attempts w9Quiz).2
    (by intro a ha; simp [w9Quiz] at ha; simp [ha])
  ⟨h.1, h.2.1, h.2.2.1, h.2.2.2.1, h.2.2.2.2.1, h.2.2.2.2.2.1⟩

/-! ## Claim C7 -/

theorem countP_one_decomp {α : Type*} (p : α → Bool) (l : List α)
    (h : l.countP p = 1) :
    ∃ pre x post, l = pre ++ x :: post ∧ p x = true ∧
      (∀ y ∈ pre, p y = false) ∧ (∀ y ∈ post, p y = false) := by
  induction l with
  | nil => simp [List.countP_nil] at h
  | cons a l ih =>
      rw [List.countP_cons] at h
      by_cases hpa : p a
      · have hl0 : l.countP p = 0 := by rw [if_pos hpa] at h; omega
        refine ⟨[], a, l, by simp, hpa, by simp, ?_⟩
        intro y hy
        have hny := List.countP_eq_zero.1 hl0 y hy
        simpa using hny
      · have hl1 : l.countP p = 1 := by rw [if_neg hpa] at h; simpa using h
        obtain ⟨pre, x, post, rfl, hx, hpre, hpost⟩ := ih hl1
        refine ⟨a :: pre, x, post, by simp, hx, ?_, hpost⟩
        intro y hy
        rcases List.mem_cons.1 hy with rfl | hy2
        · simpa using hpa
        · exact hpre y hy2

theorem findIdx?_append_cons {α : Type*} (p : α → Bool) (pre : List α) (x : α)
    (post : List α) (hpre : ∀ y ∈ pre, p y = false) (hx : p x = true) :
    (pre ++ x :: post).findIdx? p = some pre.length := by
  induction pre with
  | nil => simp [List.findIdx?_cons, hx]
  | cons a pre ih =>
      have hpa : p a = false := hpre a (by simp)
      rw [List.cons_append, List.findIdx?_cons, if_neg (by simp [hpa]),
        List.findIdx?_succ, ih (fun y hy => hpre y (by simp [hy]))]
      simp

theorem getElem?_append_cons {α : Type*} (pre : List α) (x : α) (post : List α) :
    (pre ++ x :: post)[pre.length]? = some x := by
  induction pre with
  | nil => simp
  | cons a pre ih => simpa using ih

theorem set_append_cons {α : Type*} (pre : List α) (x y : α) (post : List α) :
    (pre ++ x :: post).set pre.length y = pre ++ y :: post := by
  induction pre with
  | nil => simp
  | cons a pre ih => simp [ih]

theorem find?_append_cons {α : Type*} (p : α → Bool) (pre : List α) (x : α)
    (post : List α) (hpre : ∀ y ∈ pre, p y = false) (hx : p x = true) :
    (pre ++ x :: post).find? p = some x := by
  rw [List.find?_append]
  have hn : pre.find? p = none :=
    List.find?_eq_none.2 (fun y hy => by simp [hpre y hy])
  rw [hn, List.find?_cons_of_pos _ hx]
  rfl

/-- The membership toggle semantics of the lesson branch. -/
theorem mem_updateLessons (ls : List String) (L : String) (b : Bool) :
    L ∈ updateLessons ls L b ↔ b = true := by
  unfold updateLessons
  cases b with
  | true =>
      by_cases hmem : L ∈ ls
      · have hc : ls.contains L = true := by simpa using hmem
        simp [hc, hmem]
      · have hc : ls.contains L = false := by simpa using hmem
        simp [hc, hmem]
  | false => simp

/-- Effect of calculateStudentProgress on a students list whose first
entry for uid sits between pre and post. -/
theorem calculateStudentProgress_decomp (cc : Course) (uid : String)
    (pre : List EnrolledStudent) (e : EnrolledStudent) (post : List EnrolledStudent)
    (hcc : cc.students = pre ++ e :: post)
    (he : e.student = uid)
    (hpre : ∀ y ∈ pre, y.student ≠ uid) :
    (calculateStudentProgress cc uid).1.students =
      pre ++ { e with progress :=
        { e.progress with
            completionPercentage := progressPercentage cc e.progress } } :: post := by
  have hpre2 : ∀ y ∈ pre, (fun x : EnrolledStudent => x.student == uid) y = false := by
    intro y hy
    simp [hpre y hy]
  have hidx : cc.students.findIdx? (fun x => x.student == uid) = some pre.length := by
    rw [hcc]
    exact findIdx?_append_cons _ pre e post hpre2 (by simp [he])
  have hget : cc.students[pre.length]? = some e := by
    rw [hcc]
    exact getElem?_append_cons pre e post
  unfold calculateStudentProgress
  rw [hidx]
  simp only [hget]
  simp only [hcc]
  exact set_append_cons pre e _ post

/-- One updateCourseProgress call with a lesson id toggles the lesson
set of the unique enrollment entry of uid and leaves the shape of the
students list (and every other entry) unchanged. -/
theorem updateCourseProgress_step (c : Course) (uid L : String) (b : Bool) (now : ℕ)
    (pre : List EnrolledStudent) (s : EnrolledStudent) (post : List EnrolledStudent)
    (hc : c.students = pre ++ s :: post)
    (hs : s.student = uid)
    (happr : s.enrollmentStatus = EnrollmentStatus.approved)
    (hpre : ∀ y ∈ pre, y.student ≠ uid)
    (hL : L ≠ "") :
    ∃ s2 : EnrolledStudent,
      (updateCourseProgress c uid L none b now).1.students = pre ++ s2 :: post ∧
      s2.student = uid ∧
      s2.enrollmentStatus = EnrollmentStatus.approved ∧
      s2.progress.completedLessons = updateLessons s.progress.completedLessons L b := by
  have hpre1 : ∀ y ∈ pre,
      (fun x : EnrolledStudent =>
        x.student == uid && x.enrollmentStatus == EnrollmentStatus.approved) y = false := by
    intro y hy
    simp [hpre y hy]
  have hidx1 : c.students.findIdx?
      (fun x => x.student == uid && x.enrollmentStatus == EnrollmentStatus.approved) =
      some pre.length := by
    rw [hc]
    exact findIdx?_append_cons _ pre s post hpre1 (by simp [hs, happr])
  have hget1 : c.students[pre.length]? = some s := by
    rw [hc]
    exact getElem?_append_cons pre s post
  have hsetx : ∀ x : EnrolledStudent,
      c.students.set pre.length x = pre ++ x :: post := by
    intro x
    rw [hc]
    exact set_append_cons pre s x post
  refine ⟨{ s with progress :=
      { progressAfterToggle s.progress L none b now with
          completionPercentage :=
            progressPercentage
              { c with students :=
                  pre ++ { s with progress := progressAfterToggle s.progress L none b now } :: post }
              (progressAfterToggle s.progress L none b now) } },
    ?_, hs, happr, by simp [progressAfterToggle, hL]⟩
  unfold updateCourseProgress
  rw [hidx1]
  simp only [hget1]
  rw [hsetx { s with progress := progressAfterToggle s.progress L none b now }]
  exact calculateStudentProgress_decomp _ uid pre
    { s with progress := progressAfterToggle s.progress L none b now } post rfl hs hpre

/-- List-level fold of the lesson toggle: the last flag decides
membership. -/
theorem mem_foldl_updateLessons (L : String) :
    ∀ (bs : List Bool) (ls : List String) (bfin : Bool),
      bs.getLast? = some bfin →
      (L ∈ bs.foldl (fun acc b => updateLessons acc L b) ls ↔ bfin = true) := by
  intro bs
  induction bs with
  | nil => intro ls bfin h; simp at h
  | cons b bs ih =>
      intro ls bfin h
      cases bs with
      | nil =>
          have hb : b = bfin := by simpa using h
          rw [List.foldl_cons, List.foldl_nil, hb]
          exact mem_updateLessons ls L bfin
      | cons b2 bs2 =>
          rw [List.getLast?_cons_cons] at h
          rw [List.foldl_cons]
          exact ih _ bfin h

/-- C7: over any nonempty sequence of lesson-toggle calls on the same
materialId by an (uniquely entered, approved) student, membership of the
id in completedLessons after the last call equals the last completed
flag passed; inserting an already-present id and removing an absent id
are both no-ops rather than errors. -/
theorem lesson_toggle_last_wins (c : Course) (uid L : String) (now : ℕ)
    (bs : List Bool) (bfin : Bool)
    (hL : L ≠ "")
    (huniq : c.students.countP (fun s => s.student == uid) = 1)
    (happrall : ∀ s ∈ c.students, s.student = uid →
      s.enrollmentStatus = EnrollmentStatus.approved)
    (hlast : bs.getLast? = some bfin) :
    (∀ ls, L ∈ ls → updateLessons ls L true = ls) ∧
    (∀ ls, L ∉ ls → updateLessons ls L false = ls) ∧
    (∃ s2,
      ((bs.foldl (fun cc b => (updateCourseProgress cc uid L none b now).1) c).students.find?
        (fun s => s.student == uid)) = some s2 ∧
      (L ∈ s2.progress.completedLessons ↔ bfin = true)) := by
  refine ⟨?_, ?_, ?_⟩
  · intro ls hmem
    have hcont : ls.contains L = true := by simpa using hmem
    simp [updateLessons, hcont, hmem]
  · intro ls hmem
    have hfe : ls.filter (fun s => !(s == L)) = ls := by
      rw [List.filter_eq_self]
      intro a ha
      have hne : a ≠ L := fun heq => hmem (heq ▸ ha)
      simp [hne]
    simp [updateLessons, hfe]
  · have main : ∀ (bs2 : List Bool) (cc : Course) (pre : List EnrolledStudent)
        (s : EnrolledStudent) (post : List EnrolledStudent),
        cc.students = pre ++ s :: post → s.student = uid →
        s.enrollmentStatus = EnrollmentStatus.approved →
        (∀ y ∈ pre, y.student ≠ uid) →
        ∃ s2 : EnrolledStudent,
          (bs2.foldl (fun cc2 b => (updateCourseProgress cc2 uid L none b now).1) cc).students =
            pre ++ s2 :: post ∧
          s2.student = uid ∧
          s2.enrollmentStatus = EnrollmentStatus.approved ∧
          s2.progress.completedLessons =
            bs2.foldl (fun acc b => updateLessons acc L b) s.progress.completedLessons := by
      intro bs2
      induction bs2 with
      | nil =>
          intro cc pre s post hcc hsu ha hp
          exact ⟨s, hcc, hsu, ha, rfl⟩
      | cons b rest ih =>
          intro cc pre s post hcc hsu ha hp
          obtain ⟨s1, h1, h1s, h1a, h1l⟩ :=
            updateCourseProgress_step cc uid L b now pre s post hcc hsu ha hp hL
          obtain ⟨s2, h2, h2s, h2a, h2l⟩ :=
            ih ((updateCourseProgress cc uid L none b now).1) pre s1 post h1 h1s h1a hp
          refine ⟨s2, by simpa [List.foldl_cons] using h2, h2s, h2a, ?_⟩
          rw [List.foldl_cons, h2l, h1l]
    obtain ⟨pre, x, post, hdec, hpx, hpreb, _⟩ :=
      countP_one_decomp (fun s => s.student == uid) c.students huniq
    have hxs : x.student = uid := by simpa using hpx
    have hxa : x.enrollmentStatus = EnrollmentStatus.approved :=
      happrall x (by rw [hdec]; simp) hxs
    have hpre : ∀ y ∈ pre, y.student ≠ uid := by
      intro y hy
      have := hpreb y hy
      simpa using this
    obtain ⟨s2, hstudents, hs2, _, hl2⟩ := main bs c pre x post hdec hxs hxa hpre
    refine ⟨s2, ?_, ?_⟩
    · rw [hstudents]
      exact find?_append_cons _ pre s2 post
        (fun y hy => by simp [hpre y hy]) (by simp [hs2])
    · rw [hl2]
      exact mem_foldl_updateLessons L bs x.progress.completedLessons bfin hlast

/-- Concrete course for the C7 witness. -/
def w7Course : Course :=
  { id := "c7", instructor := "tea",
    students := [{ student := "stu", enrollmentStatus := .approved,
                   progress := { completedModules := [], completedLessons := [],
                                 quizScores := [], completionPercentage := 0,
                                 lastAccessedAt := 0 } }],
    modules := [{ order := 0, materials := [{ id := "m1", isRequired := true }] }],
    quizzes := [] }

/-- Witness for C7 at the toggle sequence true, false, true: the final
membership matches the last flag true, and the student entry the
sequence produces is the concrete one with completedLessons = [m1]. -/
theorem lesson_toggle_last_wins_witness :
    (([true, false, true].foldl
        (fun cc b => (updateCourseProgress cc "stu" "m1" none b 5).1)
        w7Course).students.find? (fun s => s.student == "stu")) =
      some { student := "stu", enrollmentStatus := .approved,
             progress := { completedModules := [], completedLessons := ["m1"],
                           quizScores := [], completionPercentage := 100,
                           lastAccessedAt := 5 } } ∧
    ("m1" ∈ (["m1"] : List String) ↔ true = true) := by
  have hth := (lesson_toggle_last_wins w7Course "stu" "m1" 5 [true, false, true] true
      (by simp)
      (by simp [w7Course, List.countP_cons])
      (by
        intro s hs _
        simp [w7Course] at hs
        simp [hs])
      rfl).2.2
  obtain ⟨s2, hfind, hmem⟩ := hth
  have hms : (("m1" : String) = "") ↔ False := iff_false_intro (by decide)
  have hconc : (([true, false, true].foldl
      (fun cc b => (updateCourseProgress cc "stu" "m1" none b 5).1)
      w7Course).students.find? (fun s => s.student == "stu")) =
      some { student := "stu", enrollmentStatus := .approved,
             progress := { completedModules := [], completedLessons := ["m1"],
                           quizScores := [], completionPercentage := 100,
                           lastAccessedAt := 5 } } := by
    norm_num [hms, w7Course, updateCourseProgress, progressAfterToggle, updateLessons,
      calculateStudentProgress, progressPercentage, totalRequiredItems, completedItems,
      requiredMaterialCount, completedMaterialCount, quizCounted, mathRound,
      List.findIdx?_cons, List.find?, List.countP, List.countP.go, Int.floor_eq_iff]
  rw [hconc] at hfind
  injection hfind with hfind
  refine ⟨hconc, ?_⟩
  rw [← hfind] at hmem
  exact hmem

end LMS
